import Mathlib

/-!
Shallow embedding of `process_spectra_point`
(src/src/pyrad_proc/pyrad/proc/process_spectra.py, lines 79-398).

Modelling conventions:
* numeric values are rationals (`ℚ`); numpy masked cells are `Option ℚ`
  with `none` for a masked cell;
* a field's data array `[ray, range, pulse]` of the accumulated record has a
  single range gate throughout (`ngates = 1`), so its rows are modelled as
  `List (Option ℚ)` indexed by pulse, the record's field data as
  `List (List (Option ℚ))` indexed by row then pulse (the singleton middle
  axis elided);
* field names are strings in the source; only equality on them is used, so
  they are modelled by an abstract identifier type `FieldName`;
* timestamps: a ray's `num2date` timestamp is modelled as an absolute time in
  seconds (`ℚ`); the record's time-unit epoch (`make_time_unit_str`) is the
  stored origin and elapsed times are differences against it.
-/

/-- Abstract identifier standing for a field-name string. -/
abbrev FieldName := Nat

/-- Lookup in an association list, as `dict[key]` access; the `none` case
corresponds to a key error, which is unreachable at every use site below. -/
def lookupField {α : Type} (fields : List (FieldName × α)) (fn : FieldName) :
    Option α :=
  (fields.find? (fun p => p.1 = fn)).map Prod.snd

/-- `np.min` over a nonempty array (lines 212, 220, 228); `np.min` of an empty
array raises, the `[]` case is a junk value never relied upon. -/
def np_min : List ℚ → ℚ
  | [] => 0
  | [x] => x
  | x :: y :: xs => min x (np_min (y :: xs))

/-- `np.argmin` (lines 236-238): index of the first occurrence of the minimum
value of a nonempty array. -/
def np_argmin : List ℚ → Nat
  | [] => 0
  | [_] => 0
  | x :: y :: xs => if x ≤ np_min (y :: xs) then 0 else np_argmin (y :: xs) + 1

/-- Elementwise `np.abs(arr - target)` (lines 212, 220, 228, 236-238). -/
def absDiff (xs : List ℚ) (target : ℚ) : List ℚ :=
  xs.map (fun x => |x - target|)

/-- `np.ma.masked_all((n,))`: a fully masked row of `n` cells
(lines 307, 321, 326). -/
def maskedRow (n : Nat) : List (Option ℚ) :=
  List.replicate n none

/-- A fully masked buffer of width `w` whose cells `[0, row.length)` have been
overwritten by `row` (the slice assignments `buf[0:W] = row` on a
`masked_all` buffer, lines 321-322, 326-330): cell `i` is `row[i]` for
`i < row.length` and stays masked beyond. -/
def writeLow (w : Nat) (row : List (Option ℚ)) : List (Option ℚ) :=
  (List.range w).map (fun i => if h : i < row.length then row.get ⟨i, h⟩ else none)

/-- Pulse-width reconciliation for one field of the accumulated record
(lines 312-331).  `recW` is `psr_poi.npulses_max` (still the pre-append record
width: it is only updated at line 385), `poiW` is `psr.npulses_max`,
`nraysNew` is `psr_poi.nrays` after the increment at line 293, `oldData` the
record's rows for this field and `poiData` the extracted row (length `poiW`).
* empty record data (first append, line 313-315): the row is reshaped to the
  record width; at the only reachable call site `recW = poiW`, so the reshape
  is the identity;
* equal widths (lines 317-319): `np.ma.append` along axis 0;
* narrower incoming row (lines 320-324): masked buffer of the record width,
  low cells overwritten by the row, then appended;
* wider incoming row (lines 325-331): a fresh masked buffer of `nraysNew`
  rows at the new width, historical rows copied into the low columns, the new
  row written in full as the last row. -/
def appendFieldData (recW poiW nraysNew : Nat)
    (oldData : List (List (Option ℚ))) (poiData : List (Option ℚ)) :
    List (List (Option ℚ)) :=
  if oldData.isEmpty then
    [poiData]
  else if recW = poiW then
    oldData ++ [poiData]
  else if poiW < recW then
    oldData ++ [writeLow recW poiData]
  else
    (List.range nraysNew).map (fun i =>
      if i + 1 < nraysNew then writeLow poiW (oldData.getD i []) else poiData)

/-- The slice of an incoming scan visible to `process_spectra_point`:
per-ray azimuth/elevation, range axis, per-ray absolute timestamps, declared
pulse count and the named spectral fields `[ray, range, pulse]`. -/
structure Scan where
  azimuth : List ℚ
  elevation : List ℚ
  range : List ℚ
  time : List ℚ
  npulses_max : Nat
  fields : List (FieldName × List (List (List (Option ℚ))))

/-- Extraction of one field's data at the selected cell (lines 304-310): a
field absent from the scan yields a fully masked row of the scan's declared
pulse width; otherwise `psr.fields[fn]['data'][ind_ray, ind_rng, :]`. -/
def extractPoiData (psr : Scan) (fn : FieldName) (indRay indRng : Nat) :
    List (Option ℚ) :=
  match lookupField psr.fields fn with
  | none => maskedRow psr.npulses_max
  | some data => (data.getD indRay []).getD indRng []

/-- The accumulated point-of-interest record (the mutable `psr_poi` object).
`sweep_end_ray_index` and `rays_per_sweep` model the single-element int32
arrays of lines 268-269; `time_units_origin` is the absolute time encoded in
`time['units']` at initialization (line 257). -/
structure PsrPoi where
  time_data : List ℚ
  time_units_origin : ℚ
  azimuth_data : List ℚ
  elevation_data : List ℚ
  range_data : List ℚ
  fixed_angle : List ℚ
  ngates : Nat
  nsweeps : Nat
  nrays : Nat
  sweep_end_ray_index : Int
  rays_per_sweep : Int
  npulses_max : Nat
  fields : List (FieldName × List (List (Option ℚ)))
  gate_longitude : List (List ℚ)
  gate_latitude : List (List ℚ)
  gate_altitude : List (List ℚ)

/-- Initialization of the record on the first successful call
(lines 244-284): a deep copy of the scan with empty field buffers, one fixed
range gate at `r`, a single sweep, zero rays, `sweep_end_ray_index = -1`,
time origin at the first selected ray's timestamp.  The gate grids carried
over from the deep copy are overwritten in the same call before any read and
start empty here.  `npulses_max` is inherited from the deep-copied scan. -/
def initPoi (psr : Scan) (fieldNames : List FieldName) (r az timePoi : ℚ) :
    PsrPoi :=
  { time_data := []
    time_units_origin := timePoi
    azimuth_data := []
    elevation_data := []
    range_data := [r]
    fixed_angle := [az]
    ngates := 1
    nsweeps := 1
    nrays := 0
    sweep_end_ray_index := -1
    rays_per_sweep := 0
    npulses_max := psr.npulses_max
    fields := fieldNames.map (fun fn => (fn, []))
    gate_longitude := []
    gate_latitude := []
    gate_altitude := [] }

/-- One append of the selected cell into the record (lines 286-387): elapsed
time, azimuth and elevation are appended, ray counters incremented, gate
grids rebuilt at the new row count, every tracked field reconciled through
`appendFieldData`, and the tracked maximum pulse width updated to
`max(psr_poi.npulses_max, psr.npulses_max)` (line 385). -/
def appendRow (poi : PsrPoi) (psr : Scan) (indRay indRng : Nat)
    (az el lon lat alt : ℚ) (fieldNames : List FieldName) : PsrPoi :=
  let nraysNew := poi.nrays + 1
  { poi with
    time_data := poi.time_data ++ [psr.time.getD indRay 0 - poi.time_units_origin]
    sweep_end_ray_index := poi.sweep_end_ray_index + 1
    rays_per_sweep := poi.rays_per_sweep + 1
    nrays := nraysNew
    azimuth_data := poi.azimuth_data ++ [az]
    elevation_data := poi.elevation_data ++ [el]
    gate_longitude := List.replicate nraysNew (List.replicate poi.ngates lon)
    gate_latitude := List.replicate nraysNew (List.replicate poi.ngates lat)
    gate_altitude := List.replicate nraysNew (List.replicate poi.ngates alt)
    fields := fieldNames.map (fun fn =>
      (fn, appendFieldData poi.npulses_max psr.npulses_max nraysNew
        ((lookupField poi.fields fn).getD []) (extractPoiData psr fn indRay indRng)))
    npulses_max := max poi.npulses_max psr.npulses_max }

/-- Nearest-bin location with tolerance enforcement (lines 212-238).
Each axis is checked independently against its tolerance via the minimum
absolute difference; a strict excess on any axis returns `none`
(`BinNotFound`, a warning).  On success the ray index minimizes the SUM of
azimuth and elevation absolute differences and the range index minimizes the
range absolute difference. -/
def locateBin (psr : Scan) (az el r azi_tol ele_tol rng_tol : ℚ) :
    Option (Nat × Nat) :=
  if np_min (absDiff psr.azimuth az) > azi_tol then none
  else if np_min (absDiff psr.elevation el) > ele_tol then none
  else if np_min (absDiff psr.range r) > rng_tol then none
  else some
    (np_argmin (List.zipWith (· + ·) (absDiff psr.azimuth az)
      (absDiff psr.elevation el)),
     np_argmin (absDiff psr.range r))

/-- Binding of the three tolerance locals used by the tolerance check at
lines 213/221/229 (lines 171-205).  In the antenna branch (`latlon = False`)
they are bound to the configured values with defaults 0.5, 0.5 and 50
(lines 203-205).  In the geographic branch (`latlon = True`) the code binds
only `latlon_tol`/`alt_tol` (lines 175-176, never read) and leaves
`azi_tol`/`ele_tol`/`rng_tol` unbound, so referencing them at line 213 raises
`UnboundLocalError`: modelled by `none`. -/
def toleranceLocals (latlon : Bool)
    (cfgAziTol cfgEleTol cfgRngTol : Option ℚ) : Option (ℚ × ℚ × ℚ) :=
  if latlon then
    none
  else
    some (cfgAziTol.getD (1/2), cfgEleTol.getD (1/2), cfgRngTol.getD 50)

/-- The resolved point handed to the locator and the accumulator: both the
antenna triple and the geographic triple (lines 171-210 always produce
both). -/
structure ResolvedPoint where
  az : ℚ
  el : ℚ
  r : ℚ
  lon : ℚ
  lat : ℚ
  alt : ℚ

/-- Contents of `dscfg['global_data']` (lines 279-282). -/
structure GlobalData where
  psr_poi : PsrPoi
  point_coordinates_WGS84_lon_lat_alt : ℚ × ℚ × ℚ
  antenna_coordinates_az_el_r : ℚ × ℚ × ℚ

/-- The run state persisted in `dscfg` across calls: the one-shot
initialization flag and the accumulated global data. -/
structure DsCfg where
  initDone : Bool
  global_data : Option GlobalData

/-- The emitted `new_dataset` dictionary (lines 148-154, 390-396). -/
structure Output where
  radar_out : PsrPoi
  point_coordinates_WGS84_lon_lat_alt : ℚ × ℚ × ℚ
  antenna_coordinates_az_el_r : ℚ × ℚ × ℚ
  final : Bool

/-- Finalize branch (`procstatus = 2`, lines 143-156): nothing if the run
was never initialized, otherwise the accumulated record plus the fixed
coordinate tuples with `final = True`; the run state is untouched. -/
def finalizeStep (cfg : DsCfg) : Option Output × DsCfg :=
  if cfg.initDone = false then (none, cfg)
  else
    match cfg.global_data with
    | none => (none, cfg)
    | some gd =>
      (some { radar_out := gd.psr_poi
              point_coordinates_WGS84_lon_lat_alt :=
                gd.point_coordinates_WGS84_lon_lat_alt
              antenna_coordinates_az_el_r := gd.antenna_coordinates_az_el_r
              final := true }, cfg)

/-- One-shot initialization (lines 243-284): the record is created on the
first successful call and the state marked initialized; later calls leave
the state unchanged here. -/
def ensureInit (cfg : DsCfg) (psr : Scan) (fieldNames : List FieldName)
    (pt : ResolvedPoint) (indRay : Nat) : DsCfg :=
  if cfg.initDone then cfg
  else
    { initDone := true
      global_data := some
        { psr_poi := initPoi psr fieldNames pt.r pt.az (psr.time.getD indRay 0)
          point_coordinates_WGS84_lon_lat_alt := (pt.lon, pt.lat, pt.alt)
          antenna_coordinates_az_el_r := (pt.az, pt.el, pt.r) } }

/-- Processing branch with a valid scan (lines 212-398): locate the bin
(skip on tolerance failure), initialize on the first success, append the
selected cell and emit with `final = False`. -/
def processingStep (fieldNames : List FieldName) (pt : ResolvedPoint)
    (tols : ℚ × ℚ × ℚ) (cfg : DsCfg) (psr : Scan) : Option Output × DsCfg :=
  match locateBin psr pt.az pt.el pt.r tols.1 tols.2.1 tols.2.2 with
  | none => (none, cfg)
  | some (indRay, indRng) =>
    match (ensureInit cfg psr fieldNames pt indRay).global_data with
    | none => (none, ensureInit cfg psr fieldNames pt indRay)
    | some gd =>
      (some { radar_out := appendRow gd.psr_poi psr indRay indRng pt.az pt.el
                pt.lon pt.lat pt.alt fieldNames
              point_coordinates_WGS84_lon_lat_alt :=
                gd.point_coordinates_WGS84_lon_lat_alt
              antenna_coordinates_az_el_r := gd.antenna_coordinates_az_el_r
              final := false },
       { ensureInit cfg psr fieldNames pt indRay with
         global_data := some
           { gd with psr_poi := (appendRow gd.psr_poi psr indRay indRng
               pt.az pt.el pt.lon pt.lat pt.alt fieldNames) } })

/-- One call of `process_spectra_point` (lines 133-398), with the coordinate
resolution and tolerance binding of lines 163-210 abstracted into `pt` and
`tols` (they involve only call inputs, no run state).  Returns the emitted
dataset (or `none`) and the updated run state.
* `procstatus = 0`: no-op (lines 133-134);
* `procstatus = 2`: finalize — nothing if never initialized, otherwise the
  accumulated record plus fixed coordinate tuples with `final = True`, state
  untouched (lines 143-156);
* `procstatus = 1`: no scan means no output (lines 158-161); otherwise
  locate the bin (skip with warning on tolerance failure), initialize the
  record on the first success, append the selected cell and emit with
  `final = False` (lines 212-398). -/
def process_spectra_point (procstatus : Nat) (fieldNames : List FieldName)
    (pt : ResolvedPoint) (tols : ℚ × ℚ × ℚ) (cfg : DsCfg)
    (radar : Option Scan) : Option Output × DsCfg :=
  if procstatus = 0 then (none, cfg)
  else if procstatus = 2 then finalizeStep cfg
  else
    match radar with
    | none => (none, cfg)
    | some psr => processingStep fieldNames pt tols cfg psr

/-- Pulse width currently tracked by a run state, 0 before initialization. -/
def cfgWidth (cfg : DsCfg) : Nat :=
  match cfg.global_data with
  | none => 0
  | some gd => gd.psr_poi.npulses_max

/-- Altitude derived from a given radar elevation under the
4/3-effective-earth-radius model (lines 180-190): `ke = 4/3`,
`a = 6378100`, `re = a * ke`, `elrad = ele * pi / 180`,
`r_ground = sqrt(x^2 + y^2)`, `r = r_ground / cos(elrad)`,
`alt_psr = sensor_altitude + sqrt(r^2 + re^2 + 2 r re sin(elrad)) - re`. -/
noncomputable def derivedAltitude (sensorAlt ele x y : ℝ) : ℝ :=
  let ke : ℝ := 4 / 3
  let a : ℝ := 6378100
  let re : ℝ := a * ke
  let elrad : ℝ := ele * Real.pi / 180
  let r_ground : ℝ := Real.sqrt (x ^ 2 + y ^ 2)
  let r : ℝ := r_ground / Real.cos elrad
  sensorAlt + Real.sqrt (r ^ 2 + re ^ 2 + 2 * r * re * Real.sin elrad) - re

/-- The altitude selection of the geographic branch (lines 180-192):
elevation-derived altitude when true-altitude lookup is disabled, the
user-supplied altitude otherwise. -/
noncomputable def alt_psr (truealt : Bool) (alt sensorAlt ele x y : ℝ) : ℝ :=
  if ¬truealt then derivedAltitude sensorAlt ele x y else alt

/-- Modelled from the spec: the derived-altitude formula exactly as the
specification words it, for comparison with the source embedding
`derivedAltitude`. -/
noncomputable def derivedAltitudeSpec (sensorAlt ele x y : ℝ) : ℝ :=
  let effective_radius : ℝ := (4 / 3) * 6378100
  let r_ground : ℝ := Real.sqrt (x ^ 2 + y ^ 2)
  let r : ℝ := r_ground / Real.cos (ele * Real.pi / 180)
  sensorAlt +
    Real.sqrt (r ^ 2 + effective_radius ^ 2 +
      2 * r * effective_radius * Real.sin (ele * Real.pi / 180)) -
    effective_radius

/-- Sample one-field scan with two rays, two range bins, pulse width 2. -/
def sampleScanA : Scan :=
  { azimuth := [96/10, 103/10]
    elevation := [5, 5]
    range := [4500, 5000]
    time := [100, 101]
    npulses_max := 2
    fields := [(0, [[[some 1, some 2], [some 3, some 4]],
                    [[some 5, some 6], [some 7, some 8]]])] }

/-- Sample one-field scan with one ray, one range bin, pulse width 3. -/
def sampleScanWide : Scan :=
  { azimuth := [10]
    elevation := [5]
    range := [5000]
    time := [200]
    npulses_max := 3
    fields := [(0, [[[some 5, some 6, some 7]]])] }

/-- Sample one-field scan with one ray, one range bin, pulse width 1, whose
field map does not contain field 0. -/
def sampleScanNarrow : Scan :=
  { azimuth := [10]
    elevation := [5]
    range := [5000]
    time := [300]
    npulses_max := 1
    fields := [] }

/-- Sample accumulated record with one row and pulse width 2. -/
def samplePoi : PsrPoi :=
  { time_data := [0]
    time_units_origin := 100
    azimuth_data := [96/10]
    elevation_data := [5]
    range_data := [5000]
    fixed_angle := [10]
    ngates := 1
    nsweeps := 1
    nrays := 1
    sweep_end_ray_index := 0
    rays_per_sweep := 1
    npulses_max := 2
    fields := [(0, [[some 1, some 2]])]
    gate_longitude := [[7]]
    gate_latitude := [[46]]
    gate_altitude := [[500]] }

/-- Sample global data holding `samplePoi`. -/
def sampleGd : GlobalData :=
  { psr_poi := samplePoi
    point_coordinates_WGS84_lon_lat_alt := (7, 46, 500)
    antenna_coordinates_az_el_r := (10, 5, 5000) }

/-- Sample run state holding `samplePoi` after a successful first call. -/
def sampleCfg : DsCfg :=
  { initDone := true
    global_data := some sampleGd }

/-- Sample resolved point matching the sample scans. -/
def samplePt : ResolvedPoint :=
  { az := 10, el := 5, r := 5000, lon := 7, lat := 46, alt := 500 }

theorem writeLow_length (w : Nat) (row : List (Option ℚ)) :
    (writeLow w row).length = w := by
  simp [writeLow]

theorem writeLow_eq_of_le (w : Nat) (row : List (Option ℚ))
    (h : row.length ≤ w) :
    writeLow w row = row ++ List.replicate (w - row.length) none := by
  apply List.ext_getElem
  · simp [writeLow]
    omega
  · intro i h1 h2
    simp only [writeLow, List.getElem_map, List.getElem_range]
    by_cases hi : i < row.length
    · rw [dif_pos hi, List.getElem_append_left hi]
      simp
    · rw [dif_neg hi, List.getElem_append_right (by omega)]
      simp

theorem np_min_le_mem (xs : List ℚ) : ∀ a ∈ xs, np_min xs ≤ a := by
  induction xs with
  | nil => simp
  | cons x t ih =>
    cases t with
    | nil => simp [np_min]
    | cons y t2 =>
      intro a ha
      rcases List.mem_cons.mp ha with rfl | ha2
      · exact min_le_left _ _
      · exact le_trans (min_le_right _ _) (ih a ha2)

theorem np_min_le_getD (xs : List ℚ) (k : Nat) (hk : k < xs.length) :
    np_min xs ≤ xs.getD k 0 := by
  apply np_min_le_mem
  rw [List.getD_eq_getElem xs 0 hk]
  exact List.getElem_mem hk

theorem np_argmin_lt_length (xs : List ℚ) (h : xs ≠ []) :
    np_argmin xs < xs.length := by
  induction xs with
  | nil => exact absurd rfl h
  | cons x t ih =>
    cases t with
    | nil => simp [np_argmin]
    | cons y t2 =>
      show (if x ≤ np_min (y :: t2) then 0 else np_argmin (y :: t2) + 1) <
        (x :: y :: t2).length
      split
      · simp
      · have := ih (by simp)
        simpa using Nat.succ_lt_succ this

theorem getD_np_argmin (xs : List ℚ) (h : xs ≠ []) :
    xs.getD (np_argmin xs) 0 = np_min xs := by
  induction xs with
  | nil => exact absurd rfl h
  | cons x t ih =>
    cases t with
    | nil => simp [np_argmin, np_min]
    | cons y t2 =>
      show (x :: y :: t2).getD
        (if x ≤ np_min (y :: t2) then 0 else np_argmin (y :: t2) + 1) 0 =
        min x (np_min (y :: t2))
      split
      · rename_i hle
        simp [min_eq_left hle]
      · rename_i hgt
        have h2 : np_min (y :: t2) ≤ x := le_of_lt (lt_of_not_le hgt)
        rw [min_eq_right h2, List.getD_cons_succ]
        exact ih (by simp)

theorem np_argmin_first (xs : List ℚ) :
    ∀ k < np_argmin xs, np_min xs < xs.getD k 0 := by
  induction xs with
  | nil => simp [np_argmin]
  | cons x t ih =>
    cases t with
    | nil => simp [np_argmin]
    | cons y t2 =>
      intro k hk
      by_cases hle : x ≤ np_min (y :: t2)
      · simp [np_argmin, hle] at hk
      · have hk2 : k < np_argmin (y :: t2) + 1 := by
          simpa [np_argmin, hle] using hk
        have hgt : np_min (y :: t2) < x := lt_of_not_le hle
        have hmin : np_min (x :: y :: t2) = np_min (y :: t2) :=
          min_eq_right (le_of_lt hgt)
        cases k with
        | zero => simpa [hmin] using hgt
        | succ k2 =>
          have := ih k2 (Nat.lt_of_succ_lt_succ hk2)
          simpa [hmin, List.getD_cons_succ] using this

theorem appendFieldData_of_empty (recW poiW n : Nat) (row : List (Option ℚ)) :
    appendFieldData recW poiW n [] row = [row] := by
  simp [appendFieldData]

theorem appendFieldData_of_eq (recW n : Nat) (old : List (List (Option ℚ)))
    (row : List (Option ℚ)) (hne : old ≠ []) :
    appendFieldData recW recW n old row = old ++ [row] := by
  rw [appendFieldData, if_neg (by simpa using hne), if_pos rfl]

theorem appendFieldData_of_lt (recW poiW n : Nat)
    (old : List (List (Option ℚ))) (row : List (Option ℚ)) (hne : old ≠ [])
    (hlt : poiW < recW) (hrow : row.length = poiW) :
    appendFieldData recW poiW n old row =
      old ++ [row ++ List.replicate (recW - poiW) none] := by
  rw [appendFieldData, if_neg (by simpa using hne),
    if_neg (by omega), if_pos hlt, writeLow_eq_of_le recW row (by omega), hrow]

theorem appendFieldData_of_gt (recW poiW : Nat)
    (old : List (List (Option ℚ))) (row : List (Option ℚ)) (hne : old ≠ [])
    (hgt : recW < poiW) (hrows : ∀ r ∈ old, r.length = recW) :
    appendFieldData recW poiW (old.length + 1) old row =
      old.map (fun r => r ++ List.replicate (poiW - recW) none) ++ [row] := by
  rw [appendFieldData, if_neg (by simpa using hne),
    if_neg (by omega), if_neg (by omega)]
  apply List.ext_getElem
  · simp
  · intro i h1 h2
    simp only [List.getElem_map, List.getElem_range]
    by_cases hi : i < old.length
    · rw [if_pos (by omega), List.getElem_append_left (by simpa using hi)]
      have hmem : old[i] ∈ old := List.getElem_mem (by omega)
      have hlen : old[i].length = recW := hrows _ hmem
      rw [List.getD_eq_getElem old [] hi,
        writeLow_eq_of_le poiW old[i] (by omega), hlen]
      simp
    · have hi2 : i = old.length := by
        simp only [List.length_map, List.length_range] at h1
        omega
      subst hi2
      rw [if_neg (by omega), List.getElem_append_right (by simp)]
      simp

theorem appendFieldData_length (recW poiW n : Nat)
    (old : List (List (Option ℚ))) (row : List (Option ℚ))
    (hn : n = old.length + 1) :
    (appendFieldData recW poiW n old row).length = n := by
  rw [appendFieldData]
  split
  · rename_i hemp
    simp only [List.isEmpty_iff] at hemp
    simp [hemp] at hn
    simp [hn]
  · split
    · simpa using hn.symm
    · split
      · simpa using hn.symm
      · simp

theorem appendFieldData_rect (recW poiW n : Nat)
    (old : List (List (Option ℚ))) (row : List (Option ℚ))
    (hrows : ∀ r ∈ old, r.length = recW) (hrow : row.length = poiW)
    (hempty : old = [] → recW = poiW) :
    ∀ r ∈ appendFieldData recW poiW n old row,
      r.length = max recW poiW := by
  rw [appendFieldData]
  split
  · rename_i hemp
    simp only [List.isEmpty_iff] at hemp
    have := hempty hemp
    intro r hr
    simp only [List.mem_singleton] at hr
    subst hr
    omega
  · split
    · rename_i heq
      intro r hr
      rcases List.mem_append.mp hr with h | h
      · rw [hrows r h]
        omega
      · simp only [List.mem_singleton] at h
        subst h
        omega
    · split
      · rename_i hne2 hlt
        intro r hr
        rcases List.mem_append.mp hr with h | h
        · rw [hrows r h]
          omega
        · simp only [List.mem_singleton] at h
          subst h
          rw [writeLow_length]
          omega
      · rename_i hne2 hgt
        intro r hr
        rcases List.mem_map.mp hr with ⟨i, hi, hri⟩
        subst hri
        split
        · rw [writeLow_length]
          omega
        · omega

theorem lookupField_map {α : Type} (fns : List FieldName) (f : FieldName → α)
    (fn : FieldName) (h : fn ∈ fns) :
    lookupField (fns.map (fun x => (x, f x))) fn = some (f fn) := by
  induction fns with
  | nil => cases h
  | cons a t ih =>
    rcases List.mem_cons.mp h with rfl | h2
    · simp [lookupField, List.find?]
    · by_cases ha : a = fn
      · subst ha
        simp [lookupField, List.find?]
      · have := ih h2
        simp only [lookupField, List.map_cons, List.find?] at this ⊢
        rw [show (decide (a = fn)) = false by simpa using ha]
        exact this

/-- C1 (padding correctness): on a successful append into a non-empty
accumulated record, for each tracked field: if the incoming row's width W is
smaller than the record's current width W', the appended row has columns
`[W, W')` masked and the earlier rows are unchanged; if the incoming width
W'' is larger than the current maximum, the field's buffer is rebuilt with
every prior row copied into the low-index columns, columns `[W', W'')`
masked, and the new row written in full as the last row. -/
theorem padding_correctness (poi : PsrPoi) (psr : Scan) (indRay indRng : Nat)
    (az el lon lat alt : ℚ) (fns : List FieldName) (fn : FieldName)
    (oldD : List (List (Option ℚ)))
    (hfn : fn ∈ fns)
    (hold : lookupField poi.fields fn = some oldD)
    (hne : oldD ≠ [])
    (hrows : ∀ r ∈ oldD, r.length = poi.npulses_max)
    (hcount : poi.nrays = oldD.length)
    (hrow : (extractPoiData psr fn indRay indRng).length = psr.npulses_max) :
    (psr.npulses_max < poi.npulses_max →
      lookupField (appendRow poi psr indRay indRng az el lon lat alt fns).fields fn =
        some (oldD ++ [extractPoiData psr fn indRay indRng ++
          List.replicate (poi.npulses_max - psr.npulses_max) none]))
    ∧ (poi.npulses_max < psr.npulses_max →
      lookupField (appendRow poi psr indRay indRng az el lon lat alt fns).fields fn =
        some (oldD.map (fun r =>
          r ++ List.replicate (psr.npulses_max - poi.npulses_max) none) ++
          [extractPoiData psr fn indRay indRng])) := by
  have h0 := lookupField_map fns
    (fun x => appendFieldData poi.npulses_max psr.npulses_max (poi.nrays + 1)
      ((lookupField poi.fields x).getD []) (extractPoiData psr x indRay indRng))
    fn hfn
  have hlk : lookupField
      (appendRow poi psr indRay indRng az el lon lat alt fns).fields fn =
      some (appendFieldData poi.npulses_max psr.npulses_max (poi.nrays + 1)
        oldD (extractPoiData psr fn indRay indRng)) := by
    simp only [appendRow]
    rw [h0]
    simp only [hold, Option.getD_some]
  constructor
  · intro hlt
    rw [hlk, appendFieldData_of_lt _ _ _ _ _ hne hlt hrow]
  · intro hgt
    rw [hlk, hcount, appendFieldData_of_gt _ _ _ _ hne hgt hrows]

/-- Witness for C1: `samplePoi` (one row, width 2) receiving the selected
cell of `sampleScanWide` (width 3): the record grows, the prior row gets a
masked tail and the new row is written in full. -/
theorem padding_correctness_witness :
    ((0 : FieldName) ∈ [(0 : FieldName)])
    ∧ lookupField samplePoi.fields 0 = some [[some 1, some 2]]
    ∧ ([[some (1 : ℚ), some 2]] ≠ [])
    ∧ (∀ r ∈ [[some (1 : ℚ), some 2]], r.length = samplePoi.npulses_max)
    ∧ samplePoi.nrays = [[some (1 : ℚ), some 2]].length
    ∧ (extractPoiData sampleScanWide 0 0 0).length = sampleScanWide.npulses_max
    ∧ ((sampleScanWide.npulses_max < samplePoi.npulses_max →
        lookupField (appendRow samplePoi sampleScanWide 0 0 10 5 7 46 500 [0]).fields 0 =
          some ([[some 1, some 2]] ++ [extractPoiData sampleScanWide 0 0 0 ++
            List.replicate (samplePoi.npulses_max - sampleScanWide.npulses_max) none]))
      ∧ (samplePoi.npulses_max < sampleScanWide.npulses_max →
        lookupField (appendRow samplePoi sampleScanWide 0 0 10 5 7 46 500 [0]).fields 0 =
          some ([[some 1, some 2]].map (fun r =>
            r ++ List.replicate (sampleScanWide.npulses_max - samplePoi.npulses_max) none) ++
            [extractPoiData sampleScanWide 0 0 0]))) :=
  ⟨by decide, by rfl, by decide, by decide, by rfl, by rfl,
    padding_correctness samplePoi sampleScanWide 0 0 10 5 7 46 500 [0] 0
      [[some 1, some 2]] (by decide) (by rfl) (by decide) (by decide)
      (by rfl) (by rfl)⟩

theorem finalizeStep_state (cfg : DsCfg) : (finalizeStep cfg).2 = cfg := by
  unfold finalizeStep
  split
  · rfl
  · split <;> rfl

theorem processingStep_width (fns : List FieldName) (pt : ResolvedPoint)
    (tols : ℚ × ℚ × ℚ) (cfg : DsCfg) (psr : Scan)
    (hcons : cfg.initDone = false → cfg.global_data = none) :
    cfgWidth cfg ≤ cfgWidth (processingStep fns pt tols cfg psr).2 := by
  unfold processingStep
  split
  · exact le_refl _
  · rename_i indRay indRng hloc
    by_cases hinit : cfg.initDone = true
    · have hE : ensureInit cfg psr fns pt indRay = cfg := by
        simp [ensureInit, hinit]
      rw [hE]
      rcases hg : cfg.global_data with _ | gd
      · simp [hg]
      · simp only [hg, cfgWidth, appendRow]
        exact le_max_left _ _
    · have hg : cfg.global_data = none := hcons (by simpa using hinit)
      simp [cfgWidth, hg]

/-- C2 (monotonic width): one call of `process_spectra_point` never decreases
the pulse-axis width tracked by the run state, and a successful append sets
the tracked maximum pulse width to the maximum of the record's previous width
and the incoming scan's width. -/
theorem monotonic_width (ps : Nat) (fns : List FieldName) (pt : ResolvedPoint)
    (tols : ℚ × ℚ × ℚ) (cfg : DsCfg) (radar : Option Scan)
    (hcons : cfg.initDone = false → cfg.global_data = none)
    (poi : PsrPoi) (psr : Scan) (indRay indRng : Nat) (az el lon lat alt : ℚ) :
    cfgWidth cfg ≤ cfgWidth (process_spectra_point ps fns pt tols cfg radar).2
    ∧ (appendRow poi psr indRay indRng az el lon lat alt fns).npulses_max =
        max poi.npulses_max psr.npulses_max := by
  constructor
  · by_cases h0 : ps = 0
    · simp [process_spectra_point, h0]
    · by_cases h2 : ps = 2
      · unfold process_spectra_point
        rw [if_neg h0, if_pos h2, finalizeStep_state]
      · rcases radar with _ | psr2
        · simp [process_spectra_point, h0, h2]
        · unfold process_spectra_point
          rw [if_neg h0, if_neg h2]
          exact processingStep_width fns pt tols cfg psr2 hcons
  · simp [appendRow]

/-- Witness for C2: one processing call of `sampleScanWide` on `sampleCfg`
(width 2) grows the tracked width, and the append updates it to the maximum
of both widths. -/
theorem monotonic_width_witness :
    (sampleCfg.initDone = false → sampleCfg.global_data = none)
    ∧ (cfgWidth sampleCfg ≤ cfgWidth
        (process_spectra_point 1 [0] samplePt (1/2, 1/2, 50) sampleCfg
          (some sampleScanWide)).2
      ∧ (appendRow samplePoi sampleScanWide 0 0 10 5 7 46 500 [0]).npulses_max =
          max samplePoi.npulses_max sampleScanWide.npulses_max) :=
  ⟨by intro h; simp [sampleCfg] at h,
    monotonic_width 1 [0] samplePt (1/2, 1/2, 50) sampleCfg
      (some sampleScanWide) (by intro h; simp [sampleCfg] at h)
      samplePoi sampleScanWide 0 0 10 5 7 46 500⟩

/-- C3 (row/attribute alignment): a successful append increases the row
count by exactly one, and afterwards the time axis, azimuth axis, elevation
axis, and the leading dimension of every tracked field's data array all
equal the new row count. -/
theorem row_attribute_alignment (poi : PsrPoi) (psr : Scan)
    (indRay indRng : Nat) (az el lon lat alt : ℚ) (fns : List FieldName)
    (ht : poi.time_data.length = poi.nrays)
    (ha : poi.azimuth_data.length = poi.nrays)
    (he : poi.elevation_data.length = poi.nrays)
    (hf : ∀ fn ∈ fns, ((lookupField poi.fields fn).getD []).length = poi.nrays) :
    (appendRow poi psr indRay indRng az el lon lat alt fns).nrays = poi.nrays + 1
    ∧ (appendRow poi psr indRay indRng az el lon lat alt fns).time_data.length =
        (appendRow poi psr indRay indRng az el lon lat alt fns).nrays
    ∧ (appendRow poi psr indRay indRng az el lon lat alt fns).azimuth_data.length =
        (appendRow poi psr indRay indRng az el lon lat alt fns).nrays
    ∧ (appendRow poi psr indRay indRng az el lon lat alt fns).elevation_data.length =
        (appendRow poi psr indRay indRng az el lon lat alt fns).nrays
    ∧ ∀ fn ∈ fns,
        ((lookupField (appendRow poi psr indRay indRng az el lon lat alt fns).fields
          fn).getD []).length =
          (appendRow poi psr indRay indRng az el lon lat alt fns).nrays := by
  refine ⟨by simp [appendRow], by simp [appendRow, ht], by simp [appendRow, ha],
    by simp [appendRow, he], ?_⟩
  intro fn hfn
  have h0 := lookupField_map fns
    (fun x => appendFieldData poi.npulses_max psr.npulses_max (poi.nrays + 1)
      ((lookupField poi.fields x).getD []) (extractPoiData psr x indRay indRng))
    fn hfn
  simp only [appendRow]
  rw [h0]
  simp only [Option.getD_some]
  rw [appendFieldData_length _ _ _ _ _ (by rw [hf fn hfn])]

/-- Witness for C3: appending the selected cell of `sampleScanA` to
`samplePoi` gives two rows everywhere. -/
theorem row_attribute_alignment_witness :
    samplePoi.time_data.length = samplePoi.nrays
    ∧ samplePoi.azimuth_data.length = samplePoi.nrays
    ∧ samplePoi.elevation_data.length = samplePoi.nrays
    ∧ (∀ fn ∈ [(0 : FieldName)],
        ((lookupField samplePoi.fields fn).getD []).length = samplePoi.nrays)
    ∧ ((appendRow samplePoi sampleScanA 1 1 10 5 7 46 500 [0]).nrays =
        samplePoi.nrays + 1
      ∧ (appendRow samplePoi sampleScanA 1 1 10 5 7 46 500 [0]).time_data.length =
          (appendRow samplePoi sampleScanA 1 1 10 5 7 46 500 [0]).nrays
      ∧ (appendRow samplePoi sampleScanA 1 1 10 5 7 46 500 [0]).azimuth_data.length =
          (appendRow samplePoi sampleScanA 1 1 10 5 7 46 500 [0]).nrays
      ∧ (appendRow samplePoi sampleScanA 1 1 10 5 7 46 500 [0]).elevation_data.length =
          (appendRow samplePoi sampleScanA 1 1 10 5 7 46 500 [0]).nrays
      ∧ ∀ fn ∈ [(0 : FieldName)],
          ((lookupField (appendRow samplePoi sampleScanA 1 1 10 5 7 46 500 [0]).fields
            fn).getD []).length =
            (appendRow samplePoi sampleScanA 1 1 10 5 7 46 500 [0]).nrays) :=
  ⟨by decide, by decide, by decide, by decide,
    row_attribute_alignment samplePoi sampleScanA 1 1 10 5 7 46 500 [0]
      (by decide) (by decide) (by decide) (by decide)⟩

/-- C4 (tolerance boundary): the nearest-bin check is per-axis; the call
fails with BinNotFound (returns `none`) exactly when at least one of the
three minimum absolute differences strictly exceeds its tolerance, and a
minimum difference exactly equal to its tolerance is accepted. -/
theorem tolerance_boundary (psr : Scan) (az el r azi_tol ele_tol rng_tol : ℚ)
    (h1 : psr.azimuth ≠ []) (h2 : psr.elevation ≠ []) (h3 : psr.range ≠ []) :
    (locateBin psr az el r azi_tol ele_tol rng_tol = none ↔
      azi_tol < np_min (absDiff psr.azimuth az)
      ∨ ele_tol < np_min (absDiff psr.elevation el)
      ∨ rng_tol < np_min (absDiff psr.range r))
    ∧ (np_min (absDiff psr.azimuth az) = azi_tol →
       np_min (absDiff psr.elevation el) = ele_tol →
       np_min (absDiff psr.range r) = rng_tol →
         (locateBin psr az el r azi_tol ele_tol rng_tol).isSome = true)
    ∧ (∀ (fns : List FieldName) (cfg : DsCfg) (pt : ResolvedPoint)
        (tols : ℚ × ℚ × ℚ),
        locateBin psr pt.az pt.el pt.r tols.1 tols.2.1 tols.2.2 = none →
        processingStep fns pt tols cfg psr = (none, cfg)) := by
  have hiff : locateBin psr az el r azi_tol ele_tol rng_tol = none ↔
      azi_tol < np_min (absDiff psr.azimuth az)
      ∨ ele_tol < np_min (absDiff psr.elevation el)
      ∨ rng_tol < np_min (absDiff psr.range r) := by
    unfold locateBin
    split_ifs with ha hb hc
    · simp [ha]
    · simp [hb]
    · simp [hc]
    · simp only [gt_iff_lt, not_lt] at ha hb hc
      simp only [reduceCtorEq, false_iff]
      push_neg
      exact ⟨ha, hb, hc⟩
  refine ⟨hiff, ?_, ?_⟩
  case refine_2 =>
    intro fns cfg pt tols hnone
    unfold processingStep
    rw [hnone]
  intro e1 e2 e3
  rcases heq : locateBin psr az el r azi_tol ele_tol rng_tol with _ | v
  · exfalso
    rcases hiff.mp heq with h | h | h
    · rw [e1] at h
      exact lt_irrefl _ h
    · rw [e2] at h
      exact lt_irrefl _ h
    · rw [e3] at h
      exact lt_irrefl _ h
  · rfl

/-- Witness for C4: `sampleScanA` with all three tolerances exactly at the
minimum distances (azimuth 0.3, elevation 0, range 0): accepted. -/
theorem tolerance_boundary_witness :
    sampleScanA.azimuth ≠ []
    ∧ sampleScanA.elevation ≠ []
    ∧ sampleScanA.range ≠ []
    ∧ ((locateBin sampleScanA 10 5 5000 (3/10) 0 0 = none ↔
        (3/10 : ℚ) < np_min (absDiff sampleScanA.azimuth 10)
        ∨ (0 : ℚ) < np_min (absDiff sampleScanA.elevation 5)
        ∨ (0 : ℚ) < np_min (absDiff sampleScanA.range 5000))
      ∧ (np_min (absDiff sampleScanA.azimuth 10) = 3/10 →
         np_min (absDiff sampleScanA.elevation 5) = 0 →
         np_min (absDiff sampleScanA.range 5000) = 0 →
           (locateBin sampleScanA 10 5 5000 (3/10) 0 0).isSome = true)
      ∧ (∀ (fns : List FieldName) (cfg : DsCfg) (pt : ResolvedPoint)
          (tols : ℚ × ℚ × ℚ),
          locateBin sampleScanA pt.az pt.el pt.r tols.1 tols.2.1 tols.2.2 = none →
          processingStep fns pt tols cfg sampleScanA = (none, cfg))) :=
  ⟨by decide, by decide, by decide,
    tolerance_boundary sampleScanA 10 5 5000 (3/10) 0 0
      (by decide) (by decide) (by decide)⟩

/-- C5 (tolerance defaults): the three tolerance locals used by the check at
lines 213/221/229 are bound with defaults 0.5, 0.5, 50 only in the antenna
branch; in the geographic (`latlon = True`) branch they are never bound, so
the tolerance check cannot evaluate (UnboundLocalError), contradicting the
claim that it evaluates with defaults regardless of mode. -/
theorem latlon_tolerance_unbound (c1 c2 c3 : Option ℚ) :
    toleranceLocals true c1 c2 c3 = none
    ∧ toleranceLocals false c1 c2 c3 =
        some (c1.getD (1/2), c2.getD (1/2), c3.getD 50) :=
  ⟨rfl, rfl⟩

/-- C6 (sum-based selection): when all three per-axis minimum differences are
within tolerance, the selected ray index is the first index minimizing the
SUM of the absolute azimuth and elevation differences, and the selected
range index is the first index minimizing the absolute range difference. -/
theorem sum_based_selection (psr : Scan) (az el r azi_tol ele_tol rng_tol : ℚ)
    (i j : Nat)
    (hlen : psr.elevation.length = psr.azimuth.length)
    (hne : psr.azimuth ≠ []) (hrne : psr.range ≠ [])
    (hok : locateBin psr az el r azi_tol ele_tol rng_tol = some (i, j)) :
    i < psr.azimuth.length
    ∧ (∀ k < psr.azimuth.length,
        (List.zipWith (· + ·) (absDiff psr.azimuth az)
          (absDiff psr.elevation el)).getD i 0 ≤
        (List.zipWith (· + ·) (absDiff psr.azimuth az)
          (absDiff psr.elevation el)).getD k 0)
    ∧ (∀ k < i,
        (List.zipWith (· + ·) (absDiff psr.azimuth az)
          (absDiff psr.elevation el)).getD i 0 <
        (List.zipWith (· + ·) (absDiff psr.azimuth az)
          (absDiff psr.elevation el)).getD k 0)
    ∧ j < psr.range.length
    ∧ (∀ k < psr.range.length,
        (absDiff psr.range r).getD j 0 ≤ (absDiff psr.range r).getD k 0)
    ∧ (∀ k < j,
        (absDiff psr.range r).getD j 0 < (absDiff psr.range r).getD k 0) := by
  have hij : i = np_argmin (List.zipWith (· + ·) (absDiff psr.azimuth az)
      (absDiff psr.elevation el)) ∧ j = np_argmin (absDiff psr.range r) := by
    unfold locateBin at hok
    split_ifs at hok
    have h := Option.some.inj hok
    exact ⟨(congrArg Prod.fst h).symm, (congrArg Prod.snd h).symm⟩
  obtain ⟨hi, hj⟩ := hij
  have hsumlen : (List.zipWith (· + ·) (absDiff psr.azimuth az)
      (absDiff psr.elevation el)).length = psr.azimuth.length := by
    simp [absDiff, hlen]
  have hsumne : List.zipWith (· + ·) (absDiff psr.azimuth az)
      (absDiff psr.elevation el) ≠ [] := by
    rw [← List.length_pos_iff_ne_nil] at hne ⊢
    omega
  have hrdlen : (absDiff psr.range r).length = psr.range.length := by
    simp [absDiff]
  have hrdne : absDiff psr.range r ≠ [] := by
    rw [← List.length_pos_iff_ne_nil] at hrne ⊢
    omega
  subst hi hj
  refine ⟨?_, ?_, ?_, ?_, ?_, ?_⟩
  · rw [← hsumlen]
    exact np_argmin_lt_length _ hsumne
  · intro k hk
    rw [getD_np_argmin _ hsumne]
    exact np_min_le_getD _ k (by omega)
  · intro k hk
    rw [getD_np_argmin _ hsumne]
    exact np_argmin_first _ k hk
  · rw [← hrdlen]
    exact np_argmin_lt_length _ hrdne
  · intro k hk
    rw [getD_np_argmin _ hrdne]
    exact np_min_le_getD _ k (by omega)
  · intro k hk
    rw [getD_np_argmin _ hrdne]
    exact np_argmin_first _ k hk

/-- Witness for C6: `sampleScanA` at the sample point selects ray 1
(azimuth 10.3, sum error 0.3 beating 0.4) and range bin 1 (5000 m). -/
theorem sum_based_selection_witness :
    sampleScanA.elevation.length = sampleScanA.azimuth.length
    ∧ sampleScanA.azimuth ≠ []
    ∧ sampleScanA.range ≠ []
    ∧ locateBin sampleScanA 10 5 5000 1 1 50 = some (1, 1)
    ∧ (1 < sampleScanA.azimuth.length
      ∧ (∀ k < sampleScanA.azimuth.length,
          (List.zipWith (· + ·) (absDiff sampleScanA.azimuth 10)
            (absDiff sampleScanA.elevation 5)).getD 1 0 ≤
          (List.zipWith (· + ·) (absDiff sampleScanA.azimuth 10)
            (absDiff sampleScanA.elevation 5)).getD k 0)
      ∧ (∀ k < 1,
          (List.zipWith (· + ·) (absDiff sampleScanA.azimuth 10)
            (absDiff sampleScanA.elevation 5)).getD 1 0 <
          (List.zipWith (· + ·) (absDiff sampleScanA.azimuth 10)
            (absDiff sampleScanA.elevation 5)).getD k 0)
      ∧ 1 < sampleScanA.range.length
      ∧ (∀ k < sampleScanA.range.length,
          (absDiff sampleScanA.range 5000).getD 1 0 ≤
            (absDiff sampleScanA.range 5000).getD k 0)
      ∧ (∀ k < 1,
          (absDiff sampleScanA.range 5000).getD 1 0 <
            (absDiff sampleScanA.range 5000).getD k 0)) :=
  ⟨by decide, by decide, by decide,
    by norm_num [locateBin, sampleScanA, absDiff, np_min, np_argmin, min_def, abs],
    sum_based_selection sampleScanA 10 5 5000 1 1 50 1 1
      (by decide) (by decide) (by decide)
      (by norm_num [locateBin, sampleScanA, absDiff, np_min, np_argmin, min_def, abs])⟩

/-- C7 (resolver altitude): with true-altitude lookup disabled the altitude
is derived by exactly the spec's 4/3-effective-earth-radius formula, and
with it enabled the user-supplied altitude is used directly. -/
theorem resolver_altitude (alt sensorAlt ele x y : ℝ) :
    alt_psr false alt sensorAlt ele x y = derivedAltitudeSpec sensorAlt ele x y
    ∧ alt_psr true alt sensorAlt ele x y = alt := by
  constructor
  · simp only [alt_psr, derivedAltitude, derivedAltitudeSpec]
    norm_num
  · simp [alt_psr]

theorem getD_snoc {α : Type} (l : List α) (a d : α) :
    (l ++ [a]).getD l.length d = a := by
  induction l with
  | nil => rfl
  | cons x t ih => simpa using ih

/-- C8 (finalize semantics): on an initialized run a finalize call emits the
accumulated record with both fixed coordinate tuples and `final = True`
while leaving the run state untouched; a second finalize call re-emits the
same output with the same state (idempotence); every processing-call
emission carries `final = False`. -/
theorem finalize_idempotent (fns fns2 : List FieldName)
    (pt pt2 : ResolvedPoint) (tols tols2 : ℚ × ℚ × ℚ) (cfg : DsCfg)
    (gd : GlobalData) (radar radar2 : Option Scan)
    (h1 : cfg.initDone = true) (h2 : cfg.global_data = some gd) :
    process_spectra_point 2 fns pt tols cfg radar =
      (some { radar_out := gd.psr_poi
              point_coordinates_WGS84_lon_lat_alt :=
                gd.point_coordinates_WGS84_lon_lat_alt
              antenna_coordinates_az_el_r := gd.antenna_coordinates_az_el_r
              final := true }, cfg)
    ∧ process_spectra_point 2 fns2 pt2 tols2
        (process_spectra_point 2 fns pt tols cfg radar).2 radar2 =
        process_spectra_point 2 fns pt tols cfg radar
    ∧ (∀ (fns3 : List FieldName) (pt3 : ResolvedPoint) (tols3 : ℚ × ℚ × ℚ)
        (cfg3 : DsCfg) (radar3 : Option Scan) (out : Output),
        (process_spectra_point 1 fns3 pt3 tols3 cfg3 radar3).1 = some out →
        out.final = false) := by
  have hfin : process_spectra_point 2 fns pt tols cfg radar =
      (some { radar_out := gd.psr_poi
              point_coordinates_WGS84_lon_lat_alt :=
                gd.point_coordinates_WGS84_lon_lat_alt
              antenna_coordinates_az_el_r := gd.antenna_coordinates_az_el_r
              final := true }, cfg) := by
    simp [process_spectra_point, finalizeStep, h1, h2]
  refine ⟨hfin, ?_, ?_⟩
  · rw [hfin]
    simp [process_spectra_point, finalizeStep, h1, h2]
  · intro fns3 pt3 tols3 cfg3 radar3 out hout
    rcases radar3 with _ | psr3
    · simp [process_spectra_point] at hout
    · have hout2 : (processingStep fns3 pt3 tols3 cfg3 psr3).1 = some out := by
        simpa [process_spectra_point] using hout
      unfold processingStep at hout2
      split at hout2
      · simp at hout2
      · split at hout2
        · simp at hout2
        · have h := Option.some.inj hout2
          rw [← h]

/-- Witness for C8: finalizing `sampleCfg` emits `samplePoi` with
`final = True`, twice identically, and processing emissions are not final. -/
theorem finalize_idempotent_witness :
    sampleCfg.initDone = true
    ∧ sampleCfg.global_data = some sampleGd
    ∧ (process_spectra_point 2 [0] samplePt (1/2, 1/2, 50) sampleCfg
        (some sampleScanA) =
        (some { radar_out := sampleGd.psr_poi
                point_coordinates_WGS84_lon_lat_alt :=
                  sampleGd.point_coordinates_WGS84_lon_lat_alt
                antenna_coordinates_az_el_r :=
                  sampleGd.antenna_coordinates_az_el_r
                final := true }, sampleCfg)
      ∧ process_spectra_point 2 [0] samplePt (1/2, 1/2, 50)
          (process_spectra_point 2 [0] samplePt (1/2, 1/2, 50) sampleCfg
            (some sampleScanA)).2 (some sampleScanA) =
          process_spectra_point 2 [0] samplePt (1/2, 1/2, 50) sampleCfg
            (some sampleScanA)
      ∧ (∀ (fns3 : List FieldName) (pt3 : ResolvedPoint) (tols3 : ℚ × ℚ × ℚ)
          (cfg3 : DsCfg) (radar3 : Option Scan) (out : Output),
          (process_spectra_point 1 fns3 pt3 tols3 cfg3 radar3).1 = some out →
          out.final = false)) :=
  ⟨rfl, rfl,
    finalize_idempotent [0] [0] samplePt samplePt (1/2, 1/2, 50) (1/2, 1/2, 50)
      sampleCfg sampleGd (some sampleScanA) (some sampleScanA) rfl rfl⟩

/-- C9 (missing field handling): if a tracked field is absent from the
incoming scan, the extracted row is an all-masked row of the scan's declared
pulse width, and the append still succeeds: after it the field has one more
row, every row has the record's (possibly grown) width, and the new last row
is entirely masked. -/
theorem missing_field_masked (poi : PsrPoi) (psr : Scan) (indRay indRng : Nat)
    (az el lon lat alt : ℚ) (fns : List FieldName) (fn : FieldName)
    (oldD : List (List (Option ℚ)))
    (hfn : fn ∈ fns)
    (hmiss : lookupField psr.fields fn = none)
    (hold : lookupField poi.fields fn = some oldD)
    (hrows : ∀ row ∈ oldD, row.length = poi.npulses_max)
    (hcount : poi.nrays = oldD.length)
    (hinit : oldD = [] → poi.npulses_max = psr.npulses_max) :
    extractPoiData psr fn indRay indRng = maskedRow psr.npulses_max
    ∧ ∃ newD,
        lookupField (appendRow poi psr indRay indRng az el lon lat alt fns).fields
          fn = some newD
        ∧ newD.length = poi.nrays + 1
        ∧ (∀ row ∈ newD, row.length = max poi.npulses_max psr.npulses_max)
        ∧ newD.getD poi.nrays [] =
            maskedRow (max poi.npulses_max psr.npulses_max) := by
  have hext : extractPoiData psr fn indRay indRng = maskedRow psr.npulses_max := by
    simp [extractPoiData, hmiss]
  have h0 := lookupField_map fns
    (fun x => appendFieldData poi.npulses_max psr.npulses_max (poi.nrays + 1)
      ((lookupField poi.fields x).getD []) (extractPoiData psr x indRay indRng))
    fn hfn
  have hlk : lookupField
      (appendRow poi psr indRay indRng az el lon lat alt fns).fields fn =
      some (appendFieldData poi.npulses_max psr.npulses_max (poi.nrays + 1)
        oldD (maskedRow psr.npulses_max)) := by
    simp only [appendRow]
    rw [h0]
    simp only [hold, Option.getD_some, hext]
  refine ⟨hext, _, hlk, ?_, ?_, ?_⟩
  · exact appendFieldData_length _ _ _ _ _ (by omega)
  · exact appendFieldData_rect _ _ _ _ _ hrows (by simp [maskedRow]) hinit
  · rcases eq_or_ne oldD [] with rfl | hne
    · have hw := hinit rfl
      rw [hcount, appendFieldData_of_empty]
      simp only [List.length_nil]
      rw [hw, max_self]
      rfl
    · rcases lt_trichotomy psr.npulses_max poi.npulses_max with hlt | heq | hgt
      · rw [appendFieldData_of_lt _ _ _ _ _ hne hlt (by simp [maskedRow]),
          hcount, getD_snoc, max_eq_left (le_of_lt hlt)]
        have hsum : psr.npulses_max + (poi.npulses_max - psr.npulses_max) =
            poi.npulses_max := by omega
        simp only [maskedRow]
        rw [← List.replicate_add, hsum]
      · rw [heq, appendFieldData_of_eq _ _ _ _ hne, hcount, getD_snoc, max_self]
      · rw [hcount, appendFieldData_of_gt _ _ _ _ hne hgt hrows]
        have hlen : (oldD.map (fun r =>
            r ++ List.replicate (psr.npulses_max - poi.npulses_max) none)).length =
            oldD.length := by simp
        rw [← hlen, getD_snoc, max_eq_right (le_of_lt hgt)]

/-- Witness for C9: `samplePoi` receiving `sampleScanNarrow`, which lacks
field 0 (and has width 1): the appended last row is fully masked at the
record width 2. -/
theorem missing_field_masked_witness :
    ((0 : FieldName) ∈ [(0 : FieldName)])
    ∧ lookupField sampleScanNarrow.fields 0 = none
    ∧ lookupField samplePoi.fields 0 = some [[some 1, some 2]]
    ∧ (∀ row ∈ [[some (1 : ℚ), some 2]], row.length = samplePoi.npulses_max)
    ∧ samplePoi.nrays = [[some (1 : ℚ), some 2]].length
    ∧ ([[some (1 : ℚ), some 2]] = [] →
        samplePoi.npulses_max = sampleScanNarrow.npulses_max)
    ∧ (extractPoiData sampleScanNarrow 0 0 0 =
        maskedRow sampleScanNarrow.npulses_max
      ∧ ∃ newD,
          lookupField (appendRow samplePoi sampleScanNarrow 0 0
            10 5 7 46 500 [0]).fields 0 = some newD
          ∧ newD.length = samplePoi.nrays + 1
          ∧ (∀ row ∈ newD,
              row.length = max samplePoi.npulses_max sampleScanNarrow.npulses_max)
          ∧ newD.getD samplePoi.nrays [] =
              maskedRow (max samplePoi.npulses_max sampleScanNarrow.npulses_max)) :=
  ⟨by decide, by rfl, by rfl, by decide, by rfl, by decide,
    missing_field_masked samplePoi sampleScanNarrow 0 0 10 5 7 46 500 [0] 0
      [[some 1, some 2]] (by decide) (by rfl) (by rfl) (by decide) (by rfl)
      (by decide)⟩

/-- C10 (single-sweep well-formedness): initialization produces a record
with one sweep, one gate, the fixed range value, zero rays, per-sweep ray
count equal to the row count and sweep-end index equal to the row count
minus one; every successful append preserves the sweep and gate structure,
keeps the fixed range axis, and advances the ray counters in step. -/
theorem single_sweep_wellformed (psr : Scan) (fns : List FieldName)
    (r az t : ℚ) (poi : PsrPoi) (psr2 : Scan) (indRay indRng : Nat)
    (az2 el2 lon lat alt : ℚ)
    (h1 : poi.nsweeps = 1) (h2 : poi.ngates = 1)
    (h3 : poi.rays_per_sweep = (poi.nrays : Int))
    (h4 : poi.sweep_end_ray_index = (poi.nrays : Int) - 1) :
    ((initPoi psr fns r az t).nsweeps = 1
      ∧ (initPoi psr fns r az t).ngates = 1
      ∧ (initPoi psr fns r az t).range_data = [r]
      ∧ (initPoi psr fns r az t).nrays = 0
      ∧ (initPoi psr fns r az t).rays_per_sweep =
          ((initPoi psr fns r az t).nrays : Int)
      ∧ (initPoi psr fns r az t).sweep_end_ray_index =
          ((initPoi psr fns r az t).nrays : Int) - 1)
    ∧ ((appendRow poi psr2 indRay indRng az2 el2 lon lat alt fns).nsweeps = 1
      ∧ (appendRow poi psr2 indRay indRng az2 el2 lon lat alt fns).ngates = 1
      ∧ (appendRow poi psr2 indRay indRng az2 el2 lon lat alt fns).range_data =
          poi.range_data
      ∧ (appendRow poi psr2 indRay indRng az2 el2 lon lat alt fns).nrays =
          poi.nrays + 1
      ∧ (appendRow poi psr2 indRay indRng az2 el2 lon lat alt fns).rays_per_sweep =
          (((appendRow poi psr2 indRay indRng az2 el2 lon lat alt fns).nrays :
            Int))
      ∧ (appendRow poi psr2 indRay indRng az2 el2 lon lat alt
          fns).sweep_end_ray_index =
          (((appendRow poi psr2 indRay indRng az2 el2 lon lat alt fns).nrays :
            Int)) - 1) := by
  refine ⟨⟨rfl, rfl, rfl, rfl, rfl, rfl⟩, ?_⟩
  refine ⟨h1, h2, rfl, rfl, ?_, ?_⟩
  · simp only [appendRow, h3]
    push_cast
    ring
  · simp only [appendRow, h4]
    push_cast
    ring

/-- Witness for C10: `samplePoi` (one row) keeps the single-sweep shape
through an append of `sampleScanA`. -/
theorem single_sweep_wellformed_witness :
    samplePoi.nsweeps = 1
    ∧ samplePoi.ngates = 1
    ∧ samplePoi.rays_per_sweep = (samplePoi.nrays : Int)
    ∧ samplePoi.sweep_end_ray_index = (samplePoi.nrays : Int) - 1
    ∧ (((initPoi sampleScanA [0] 5000 10 100).nsweeps = 1
      ∧ (initPoi sampleScanA [0] 5000 10 100).ngates = 1
      ∧ (initPoi sampleScanA [0] 5000 10 100).range_data = [5000]
      ∧ (initPoi sampleScanA [0] 5000 10 100).nrays = 0
      ∧ (initPoi sampleScanA [0] 5000 10 100).rays_per_sweep =
          ((initPoi sampleScanA [0] 5000 10 100).nrays : Int)
      ∧ (initPoi sampleScanA [0] 5000 10 100).sweep_end_ray_index =
          ((initPoi sampleScanA [0] 5000 10 100).nrays : Int) - 1)
    ∧ ((appendRow samplePoi sampleScanA 1 1 10 5 7 46 500 [0]).nsweeps = 1
      ∧ (appendRow samplePoi sampleScanA 1 1 10 5 7 46 500 [0]).ngates = 1
      ∧ (appendRow samplePoi sampleScanA 1 1 10 5 7 46 500 [0]).range_data =
          samplePoi.range_data
      ∧ (appendRow samplePoi sampleScanA 1 1 10 5 7 46 500 [0]).nrays =
          samplePoi.nrays + 1
      ∧ (appendRow samplePoi sampleScanA 1 1 10 5 7 46 500 [0]).rays_per_sweep =
          (((appendRow samplePoi sampleScanA 1 1 10 5 7 46 500 [0]).nrays : Int))
      ∧ (appendRow samplePoi sampleScanA 1 1 10 5 7 46 500 [0]).sweep_end_ray_index =
          (((appendRow samplePoi sampleScanA 1 1 10 5 7 46 500 [0]).nrays : Int))
            - 1)) :=
  ⟨by decide, by decide, by decide, by decide,
    single_sweep_wellformed sampleScanA [0] 5000 10 100 samplePoi sampleScanA
      1 1 10 5 7 46 500 (by decide) (by decide) (by decide) (by decide)⟩
